import Mathlib

/-!
Template registry of `router/router.go`

A shallow embedding of the package `router`: the renderer
`TemplateRegistry.Render`, the loader `loadTemplates` and the constructor `New`.

Conventions of the embedding.

* A Go map is an association list; the order of the list is the order in which
  `range` visits the entries.  A well-formed map has no key twice (`GoMap.WF`).
* A value of type `interface{}` is a `Value`; its dynamic type is computed by
  `reflect.TypeOf`.  The `map` constructor carries the key type, the element
  type and the name of the defined type (if the map type is a defined one, such
  as `echo.Map`), so every Go map type has exactly one representation.
* A map is a reference: what `Render` writes through `data` is seen by the
  caller, so `Render` returns the payload as it is after the call.  The registry
  maps have the types `map[string]*template.Template` and `map[string]string`,
  which the payload asserted to `map[string]interface{}` can never alias.
* The libraries are parameters: `quote` is the `%q` verb of `fmt`
  (`strconv.Quote`), `ParseFS` is `template.New(name).ParseFS(riceFS{box}, files...)`,
  and a `Template` is what `(*template.Template).Execute` does with a payload.
  `log.Fatal` of `labstack/gommon/log` logs its arguments and ends the process
  with `os.Exit(1)`.
-/

namespace router

/-! ## Go maps -/

/-- Go map as an association list -/
abbrev GoMap (K V : Type) := List (K × V)

namespace GoMap

variable {K V : Type} [DecidableEq K]

/-- The lookup `v, ok := m[k]` -/
def get : GoMap K V → K → Option V
  | [], _ => none
  | (k', v) :: m, k => if k' = k then some v else get m k

/-- The assignment `m[k] = v` -/
def set : GoMap K V → K → V → GoMap K V
  | [], k, v => [(k, v)]
  | (k', v') :: m, k, v => if k' = k then (k, v) :: m else (k', v') :: set m k v

/-- The keys of the map, in iteration order -/
def keys (m : GoMap K V) : List K := m.map Prod.fst

/-- Well-formedness: no key occurs twice -/
def WF (m : GoMap K V) : Prop := (keys m).Nodup

instance (m : GoMap K V) : Decidable (WF m) := by
  unfold WF; infer_instance

end GoMap

/-! ## Dynamic values and `reflect` -/

/-- Go types, as far as `reflect.TypeOf(data).Kind()` and the type assertion
`data.(map[string]interface{})` tell them apart -/
inductive GoType where
  | bool
  | int
  | string
  | emptyInterface
  | struct (name : String)
  | map (key elem : GoType)
  | defined (name : String) (underlying : GoType)
  deriving DecidableEq, Repr

/-- The kinds of `reflect.Kind` that occur -/
inductive Kind where
  | Bool
  | Int
  | String
  | Interface
  | Struct
  | Map
  deriving DecidableEq, Repr

/-- The method `reflect.Type.Kind`: a defined type has the kind of its underlying type -/
def GoType.Kind : GoType → Kind
  | .bool => .Bool
  | .int => .Int
  | .string => .String
  | .emptyInterface => .Interface
  | .struct _ => .Struct
  | .map _ _ => .Map
  | .defined _ u => u.Kind

/-- Keys of Go maps -/
inductive Key where
  | str (s : String)
  | int (i : Int)
  | bool (b : Bool)
  deriving DecidableEq, Repr

/-- A value held in an `interface{}`.  `nil` is the nil interface (no dynamic
type).  `map key elem defined m` is a map of type `map[key]elem`, or of the
defined type `defined` whose underlying type is `map[key]elem`; `m = none` is
the nil map of that type. -/
inductive Value where
  | nil
  | bool (b : Bool)
  | int (i : Int)
  | string (s : String)
  | struct (name : String) (fields : List (String × Value))
  | map (key elem : GoType) (defined : Option String) (m : Option (List (Key × Value)))

/-- The dynamic type `reflect.TypeOf(v)`; `none` is the nil `reflect.Type`
returned for the nil interface -/
def reflect.TypeOf : Value → Option GoType
  | .nil => none
  | .bool _ => some .bool
  | .int _ => some .int
  | .string _ => some .string
  | .struct name _ => some (.struct name)
  | .map key elem none _ => some (.map key elem)
  | .map key elem (some name) _ => some (.defined name (.map key elem))

/-- Run-time panics that `Render` can raise -/
inductive Panic where
  /-- calling `Kind()` on the nil `reflect.Type` -/
  | nilPointerDereference
  /-- a failed type assertion `data.(map[string]interface{})`; `dynamic` is the
  dynamic type of `data` -/
  | interfaceConversion (dynamic : Option GoType)
  /-- assignment to an entry of a nil map -/
  | nilMapAssignment
  deriving DecidableEq, Repr

/-! ## Templates and the registry -/

/-- What `Execute` did: the bytes it wrote to the writer and the error it returned -/
structure ExecResult where
  written : List UInt8
  err : Option String

/-- Stand-in for `*template.Template`: the package only calls `Execute` on it -/
structure Template where
  Execute : Value → ExecResult

/-- TemplateRegistry is a custom html/template renderer for Echo framework -/
structure TemplateRegistry where
  templates : GoMap String Template
  extraData : GoMap String String

/-- The error values that `Render` returns -/
inductive Error where
  /-- the error that `fmt.Errorf` makes in `Render`, with its message -/
  | errorf (msg : String)
  /-- the error that `Execute` returned, with its message -/
  | execute (msg : String)
  deriving DecidableEq, Repr

/-- How a call of `Render` ends -/
inductive Outcome where
  /-- `Render` returned; `none` is the nil error -/
  | returned (err : Option Error)
  | panicked (p : Panic)
  deriving DecidableEq, Repr

/-- The state after a call of `Render`: how it ended, the content of the writer,
the caller's payload and the registry -/
structure RenderResult where
  outcome : Outcome
  w : List UInt8
  data : Value
  t : TemplateRegistry

/-- The type assertion `data.(map[string]interface{})`: it holds exactly for the
dynamic type `map[string]interface{}`, not for a defined type over it -/
def assertMapStringInterface : Value → Except Panic (Option (List (Key × Value)))
  | .map .string .emptyInterface none m => .ok m
  | v => .error (.interfaceConversion (reflect.TypeOf v))

/-- One pass of the loop body `data.(map[string]interface{})[k] = v`: the payload
after it, or the payload as it is and the panic -/
def assign (data : Value) (k v : String) : Value × Option Panic :=
  match assertMapStringInterface data with
  | .error p => (data, some p)
  | .ok none => (data, some .nilMapAssignment)
  | .ok (some m) =>
    (.map .string .emptyInterface none (some (GoMap.set m (.str k) (.string v))), none)

/-- The loop `for k, v := range t.extraData { data.(map[string]interface{})[k] = v }`,
visiting the entries in the order of the list -/
def inject : List (String × String) → Value → Value × Option Panic
  | [], data => (data, none)
  | (k, v) :: rest, data =>
    match assign data k v with
    | (data', some p) => (data', some p)
    | (data', none) => inject rest data'

/-- Render e.Renderer interface (`w` is the content of the writer before the call) -/
def TemplateRegistry.Render (quote : String → String) (t : TemplateRegistry)
    (w : List UInt8) (name : String) (data : Value) : RenderResult :=
  match GoMap.get t.templates name with
  | none => ⟨.returned (some (.errorf ("Template not found: " ++ quote name))), w, data, t⟩
  | some tmpl =>
    match reflect.TypeOf data with
    | none => ⟨.panicked .nilPointerDereference, w, data, t⟩
    | some ty =>
      let merged := if ty.Kind = Kind.Map then inject t.extraData data else (data, none)
      match merged with
      | (data', some p) => ⟨.panicked p, w, data', t⟩
      | (data', none) =>
        let r := tmpl.Execute data'
        ⟨.returned (r.err.map Error.execute), w ++ r.written, data', t⟩

/-! ## Loading the templates -/

/-- The local type `templatePaths []string` -/
abbrev templatePaths := List String

/-- The type of `template.New(name).ParseFS(riceFS{tmplBox}, files...)` as a
function of `name` and `files`: the parsed unit, or the error -/
abbrev ParseFunc := String → templatePaths → Except String Template

/-- The state of `loadTemplates`: the map built so far and the calls of
`ParseFS` made so far (name and files), in order -/
structure LoadState where
  templates : GoMap String Template
  parsed : List (String × templatePaths)

/-- How `loadTemplates` ends when it does not return -/
inductive Exit where
  /-- `log.Fatal("Error loading template: %q: %v", name, err)` ended the process -/
  | fatal (name : String) (err : String)
  /-- `files[0]` on an empty group -/
  | indexOutOfRange
  deriving DecidableEq, Repr

/-- The closure `loader`: for each group, parse its files under the name of the
first one and store the result under that name; the first failure ends the
process.  The result is the final state, or the exit and the state at the exit. -/
def loader (ParseFS : ParseFunc) : List templatePaths → LoadState → Except (Exit × LoadState) LoadState
  | [], s => .ok s
  | files :: paths, s =>
    match files with
    | [] => .error (.indexOutOfRange, s)
    | name :: _ =>
      let s1 : LoadState := ⟨s.templates, s.parsed ++ [(name, files)]⟩
      match ParseFS name files with
      | .error err => .error (.fatal name err, s1)
      | .ok tmpl => loader ParseFS paths ⟨GoMap.set s1.templates name tmpl, s1.parsed⟩

/-- The five groups that `loadTemplates` passes to `loader` -/
def templateGroups : List templatePaths :=
  [ ["login.html"],
    ["clients.html", "base.html"],
    ["server.html", "base.html"],
    ["global_settings.html", "base.html"],
    ["status.html", "base.html"] ]

/-- The function `loadTemplates`, with the trace of the loader -/
def loadTemplatesTrace (ParseFS : ParseFunc) : Except (Exit × LoadState) LoadState :=
  loader ParseFS templateGroups ⟨[], []⟩

/-- The function `loadTemplates`: the template map it returns, or the exit -/
def loadTemplates (ParseFS : ParseFunc) : Except Exit (GoMap String Template) :=
  match loadTemplatesTrace ParseFS with
  | .ok s => .ok s.templates
  | .error (e, _) => .error e

/-- New function: the renderer it installs in the Echo instance (the session,
logging and CORS middleware are configuration of the framework) -/
def New (ParseFS : ParseFunc) (extraData : GoMap String String) : Except Exit TemplateRegistry :=
  match loadTemplates ParseFS with
  | .ok templates => .ok ⟨templates, extraData⟩
  | .error e => .error e

/-- The map that the loop leaves when every assignment succeeds: the
assignments `m[k] = v` made one after the other, in the order of the list -/
def assignAll (extraData : List (String × String)) (m : List (Key × Value)) :
    List (Key × Value) :=
  extraData.foldl (fun m e => GoMap.set m (.str e.1) (.string e.2)) m

/-- The payload of type `map[string]interface{}` with the entries `m` (`none`: the nil map) -/
def mapStringInterface (m : Option (List (Key × Value))) : Value :=
  .map .string .emptyInterface none m

/-- The first file `files[0]` of a group, which names it -/
def primary (files : templatePaths) : String := files.headD ""

/-! ## Sample inputs -/

/-- A template that writes the two bytes of "hi" and returns no error -/
def sampleTemplate : Template := ⟨fun _ => ⟨[104, 105], none⟩⟩

/-- A parser for which every group parses -/
def sampleParse : ParseFunc := fun _ _ => .ok sampleTemplate

/-- A parser for which the group of "server.html" does not parse -/
def failingParse : ParseFunc := fun name _ =>
  if name = "server.html" then .error "unexpected EOF" else .ok sampleTemplate

/-- The quoting of a name without special characters -/
def sampleQuote (s : String) : String :=
  String.singleton (Char.ofNat 34) ++ s ++ String.singleton (Char.ofNat 34)

/-- A registry with the template "login.html" and the extra data of the version -/
def sampleRegistry : TemplateRegistry :=
  ⟨[("login.html", sampleTemplate)], [("version", "1.2.3")]⟩

/-! ## Lemmas on maps -/

namespace GoMap

variable {K V : Type} [DecidableEq K]

theorem get_set (m : GoMap K V) (k k' : K) (v : V) :
    get (set m k v) k' = if k = k' then some v else get m k' := by
  induction m with
  | nil => simp [set, get]
  | cons e m ih =>
    obtain ⟨k0, v0⟩ := e
    by_cases h0 : k0 = k
    · subst h0
      by_cases h1 : k0 = k' <;> simp [set, get, h1]
    · by_cases h1 : k0 = k'
      · subst h1
        have h2 : ¬ k = k0 := fun h => h0 h.symm
        simp [set, get, h0, h2]
      · simp [set, get, h0, h1, ih]

theorem get_eq_none_iff (m : GoMap K V) (k : K) : get m k = none ↔ k ∉ keys m := by
  induction m with
  | nil => simp [get, keys]
  | cons e m ih =>
    obtain ⟨k0, v0⟩ := e
    by_cases h0 : k0 = k
    · subst h0
      simp [get, keys]
    · have h1 : ¬ k = k0 := fun h => h0 h.symm
      have ih1 : get m k = none ↔ k ∉ List.map Prod.fst m := ih
      simp [get, keys, h0, h1, ih1]

theorem mem_keys_set (m : GoMap K V) (k k' : K) (v : V) :
    k' ∈ keys (set m k v) ↔ k' = k ∨ k' ∈ keys m := by
  have h1 := get_eq_none_iff (set m k v) k'
  have h2 := get_eq_none_iff m k'
  rw [get_set] at h1
  by_cases hk : k = k'
  · subst hk
    simp only [if_true] at h1
    have h3 : k ∈ keys (set m k v) := by
      by_contra hc
      exact absurd (h1.mpr hc) (by simp)
    simp [h3]
  · have hk1 : ¬ k' = k := fun h => hk h.symm
    simp only [hk, if_false] at h1
    have h3 : k' ∈ keys (set m k v) ↔ k' ∈ keys m := by
      rw [← not_iff_not, ← h1, h2]
    simp [h3, hk1]

theorem get_eq_some_iff (m : GoMap K V) (hwf : WF m) (k : K) (v : V) :
    get m k = some v ↔ (k, v) ∈ m := by
  induction m with
  | nil => simp [get]
  | cons e m ih =>
    obtain ⟨k0, v0⟩ := e
    have hnd : k0 ∉ keys m ∧ WF m := by
      simpa [WF, keys] using hwf
    by_cases h0 : k0 = k
    · subst h0
      have hno : (k0, v) ∉ m := fun hmem =>
        hnd.1 (List.mem_map.mpr ⟨(k0, v), hmem, rfl⟩)
      simp only [get, if_true, List.mem_cons, Prod.mk.injEq, true_and, Option.some.injEq]
      constructor
      · intro h
        exact Or.inl h.symm
      · rintro (h | h)
        · exact h.symm
        · exact absurd h hno
    · have h1 : ¬ k = k0 := fun h => h0 h.symm
      simp [get, h0, h1, ih hnd.2]

theorem get_perm (m m' : GoMap K V) (hp : List.Perm m m') (hwf : WF m) (k : K) :
    get m k = get m' k := by
  have hwf' : WF m' := by
    unfold WF keys at *
    exact (List.Perm.nodup_iff (hp.map Prod.fst)).mp hwf
  apply Option.ext
  intro v
  simp only [Option.mem_def]
  rw [get_eq_some_iff m hwf, get_eq_some_iff m' hwf']
  exact hp.mem_iff

end GoMap

/-! ## Lemmas on the loop of `Render` -/

theorem inject_mapStringInterface (extraData : List (String × String))
    (m : List (Key × Value)) :
    inject extraData (mapStringInterface (some m))
      = (mapStringInterface (some (assignAll extraData m)), none) := by
  induction extraData generalizing m with
  | nil => rfl
  | cons e rest ih =>
    obtain ⟨k, v⟩ := e
    have hstep : inject ((k, v) :: rest) (mapStringInterface (some m))
        = inject rest (mapStringInterface (some (GoMap.set m (.str k) (.string v)))) := rfl
    rw [hstep, ih]
    rfl

theorem inject_nil_map (extraData : List (String × String)) :
    inject extraData (mapStringInterface none)
      = (mapStringInterface none, if extraData = [] then none else some .nilMapAssignment) := by
  cases extraData with
  | nil => rfl
  | cons e rest =>
    obtain ⟨k, v⟩ := e
    rfl

theorem get_assignAll_str (extraData : List (String × String)) (hwf : GoMap.WF extraData)
    (m : List (Key × Value)) (k : String) :
    GoMap.get (assignAll extraData m) (.str k)
      = match GoMap.get extraData k with
        | some v => some (.string v)
        | none => GoMap.get m (.str k) := by
  induction extraData generalizing m with
  | nil => rfl
  | cons e rest ih =>
    obtain ⟨k0, v0⟩ := e
    have hnd : k0 ∉ GoMap.keys rest ∧ GoMap.WF rest := by
      simpa [GoMap.WF, GoMap.keys] using hwf
    have hstep : assignAll ((k0, v0) :: rest) m
        = assignAll rest (GoMap.set m (.str k0) (.string v0)) := rfl
    rw [hstep, ih hnd.2]
    by_cases h0 : k0 = k
    · subst h0
      have hnone : GoMap.get rest k0 = none := (GoMap.get_eq_none_iff rest k0).mpr hnd.1
      simp [GoMap.get, hnone, GoMap.get_set]
    · have h1 : ¬ Key.str k0 = Key.str k := fun h => h0 (Key.str.inj h)
      simp [GoMap.get, h0, GoMap.get_set, h1]

theorem get_assignAll_other (extraData : List (String × String))
    (m : List (Key × Value)) (kk : Key) (h : ∀ k ∈ GoMap.keys extraData, kk ≠ .str k) :
    GoMap.get (assignAll extraData m) kk = GoMap.get m kk := by
  induction extraData generalizing m with
  | nil => rfl
  | cons e rest ih =>
    obtain ⟨k0, v0⟩ := e
    have hstep : assignAll ((k0, v0) :: rest) m
        = assignAll rest (GoMap.set m (.str k0) (.string v0)) := rfl
    have hrest : ∀ k ∈ GoMap.keys rest, kk ≠ .str k := fun k hk =>
      h k (by simp only [GoMap.keys, List.map_cons, List.mem_cons]; exact Or.inr hk)
    have h0 : ¬ Key.str k0 = kk := fun heq =>
      h k0 (by simp [GoMap.keys]) heq.symm
    rw [hstep, ih _ hrest, GoMap.get_set]
    simp [h0]

/-! ## Lemmas on the loader -/

theorem loader_fatal (ParseFS : ParseFunc) (pre : List templatePaths) (g : templatePaths)
    (post : List templatePaths) (err : String) (s0 : LoadState)
    (hpre : ∀ x ∈ pre, ∃ tmpl, ParseFS (primary x) x = .ok tmpl)
    (hpne : ∀ x ∈ pre, x ≠ [])
    (hne : g ≠ [])
    (hfail : ParseFS (primary g) g = .error err) :
    ∃ s, loader ParseFS (pre ++ g :: post) s0 = .error (.fatal (primary g) err, s)
      ∧ s.parsed = s0.parsed ++ (pre ++ [g]).map (fun x => (primary x, x))
      ∧ ∀ k ∈ GoMap.keys s.templates, k ∈ GoMap.keys s0.templates ∨ k ∈ pre.map primary := by
  induction pre generalizing s0 with
  | nil =>
    cases g with
    | nil => exact absurd rfl hne
    | cons name rest =>
      have hfail1 : ParseFS name (name :: rest) = .error err := hfail
      refine ⟨⟨s0.templates, s0.parsed ++ [(name, name :: rest)]⟩, ?_, ?_, ?_⟩
      · simp [loader, hfail1, primary]
      · simp [primary]
      · intro k hk
        exact Or.inl hk
  | cons x pre ih =>
    obtain ⟨tmpl, hx⟩ := hpre x (by simp)
    have hpre1 : ∀ y ∈ pre, ∃ tmpl, ParseFS (primary y) y = .ok tmpl := fun y hy =>
      hpre y (by simp [hy])
    have hpne1 : ∀ y ∈ pre, y ≠ [] := fun y hy => hpne y (by simp [hy])
    cases x with
    | nil => exact absurd rfl (hpne [] (by simp))
    | cons name rest =>
      have hx1 : ParseFS name (name :: rest) = .ok tmpl := hx
      obtain ⟨s, hs, hparsed, hkeys⟩ :=
        ih ⟨GoMap.set s0.templates name tmpl, s0.parsed ++ [(name, name :: rest)]⟩ hpre1 hpne1
      refine ⟨s, ?_, ?_, ?_⟩
      · simpa [loader, hx1] using hs
      · simpa [primary] using hparsed
      · intro k hk
        rcases hkeys k hk with h | h
        · rcases (GoMap.mem_keys_set s0.templates name k tmpl).mp h with h1 | h1
          · exact Or.inr (by simp [h1, primary])
          · exact Or.inl h1
        · exact Or.inr (by simp [h])

theorem exists_first_failure {α : Type} (P : α → Prop) (l : List α)
    (h : ∃ x ∈ l, ¬ P x) :
    ∃ pre g post, l = pre ++ g :: post ∧ (∀ x ∈ pre, P x) ∧ ¬ P g := by
  induction l with
  | nil => simp at h
  | cons a l ih =>
    by_cases ha : P a
    · have hl : ∃ x ∈ l, ¬ P x := by
        obtain ⟨x, hx, hpx⟩ := h
        rcases List.mem_cons.mp hx with hxa | hx1
        · subst hxa
          exact absurd ha hpx
        · exact ⟨x, hx1, hpx⟩
      obtain ⟨pre, g, post, hsplit, hpre, hg⟩ := ih hl
      refine ⟨a :: pre, g, post, by rw [hsplit]; rfl, ?_, hg⟩
      intro x hx
      rcases List.mem_cons.mp hx with hxa | hx1
      · subst hxa
        exact ha
      · exact hpre x hx1
    · exact ⟨[], a, l, rfl, by simp, ha⟩

theorem loader_five (ParseFS : ParseFunc) (t1 t2 t3 t4 t5 : Template)
    (h1 : ParseFS "login.html" ["login.html"] = .ok t1)
    (h2 : ParseFS "clients.html" ["clients.html", "base.html"] = .ok t2)
    (h3 : ParseFS "server.html" ["server.html", "base.html"] = .ok t3)
    (h4 : ParseFS "global_settings.html" ["global_settings.html", "base.html"] = .ok t4)
    (h5 : ParseFS "status.html" ["status.html", "base.html"] = .ok t5) :
    loadTemplates ParseFS
      = .ok [("login.html", t1), ("clients.html", t2), ("server.html", t3),
          ("global_settings.html", t4), ("status.html", t5)] := by
  simp [loadTemplates, loadTemplatesTrace, templateGroups, loader, h1, h2, h3, h4, h5, GoMap.set]

theorem Render_found_not_errorf (quote : String → String) (t : TemplateRegistry)
    (w : List UInt8) (name : String) (data : Value) (tmpl : Template)
    (hname : GoMap.get t.templates name = some tmpl) (msg : String) :
    (t.Render quote w name data).outcome ≠ .returned (some (.errorf msg)) := by
  unfold TemplateRegistry.Render
  rw [hname]
  cases hty : reflect.TypeOf data with
  | none => simp
  | some ty =>
    simp only []
    split
    · simp
    · cases (tmpl.Execute _).err <;> simp

/-! ## The renderer -/

/-- C1: for a name that is not a key of the template map, `Render` returns the
error of `fmt.Errorf` whose message is "Template not found: " followed by the
quoted name, and the writer holds what it held before the call. -/
theorem Render_template_not_found (quote : String → String) (t : TemplateRegistry)
    (w : List UInt8) (name : String) (data : Value)
    (h : name ∉ GoMap.keys t.templates) :
    (t.Render quote w name data).outcome
        = .returned (some (.errorf ("Template not found: " ++ quote name)))
      ∧ (t.Render quote w name data).w = w := by
  have hget : GoMap.get t.templates name = none := (GoMap.get_eq_none_iff _ _).mpr h
  simp [TemplateRegistry.Render, hget]

/-- Witness of C1: the page "missing-page" in the sample registry. -/
theorem Render_template_not_found_witness :
    "missing-page" ∉ GoMap.keys sampleRegistry.templates
      ∧ (sampleRegistry.Render sampleQuote [] "missing-page" (mapStringInterface (some []))).outcome
          = .returned (some (.errorf ("Template not found: " ++ sampleQuote "missing-page")))
      ∧ (sampleRegistry.Render sampleQuote [] "missing-page" (mapStringInterface (some []))).w = [] :=
  ⟨by decide,
    Render_template_not_found sampleQuote sampleRegistry [] "missing-page"
      (mapStringInterface (some [])) (by decide)⟩

/-- C2: for a name of the registry and a non-nil `map[string]interface{}` payload
`d`, `Render` executes the template on a map `merged` in which every key of
ExtraData has the value of ExtraData, and every other key has what it has in `d`
(its value, or no entry). -/
theorem Render_executes_merged (quote : String → String) (t : TemplateRegistry)
    (w : List UInt8) (name : String) (tmpl : Template) (d : List (Key × Value))
    (hname : GoMap.get t.templates name = some tmpl)
    (hwf : GoMap.WF t.extraData) :
    ∃ merged : List (Key × Value),
      t.Render quote w name (mapStringInterface (some d))
          = ⟨.returned ((tmpl.Execute (mapStringInterface (some merged))).err.map Error.execute),
              w ++ (tmpl.Execute (mapStringInterface (some merged))).written,
              mapStringInterface (some merged), t⟩
        ∧ (∀ k v, GoMap.get t.extraData k = some v →
            GoMap.get merged (.str k) = some (.string v))
        ∧ (∀ kk, (∀ k ∈ GoMap.keys t.extraData, kk ≠ .str k) →
            GoMap.get merged kk = GoMap.get d kk) := by
  refine ⟨assignAll t.extraData d, ?_, ?_, ?_⟩
  · have hty : reflect.TypeOf (mapStringInterface (some d))
        = some (.map .string .emptyInterface) := rfl
    simp [TemplateRegistry.Render, hname, hty, GoType.Kind, inject_mapStringInterface]
  · intro k v hk
    rw [get_assignAll_str t.extraData hwf d k, hk]
  · intro kk hkk
    exact get_assignAll_other t.extraData d kk hkk

/-- Witness of C2: the payload already has the key "version" and a key "user". -/
theorem Render_executes_merged_witness :
    GoMap.get sampleRegistry.templates "login.html" = some sampleTemplate
      ∧ GoMap.WF sampleRegistry.extraData
      ∧ ∃ merged : List (Key × Value),
          sampleRegistry.Render sampleQuote [] "login.html"
              (mapStringInterface (some [(.str "version", .string "0.0.0"), (.str "user", .string "admin")]))
            = ⟨.returned ((sampleTemplate.Execute (mapStringInterface (some merged))).err.map Error.execute),
                [] ++ (sampleTemplate.Execute (mapStringInterface (some merged))).written,
                mapStringInterface (some merged), sampleRegistry⟩
          ∧ (∀ k v, GoMap.get sampleRegistry.extraData k = some v →
              GoMap.get merged (.str k) = some (.string v))
          ∧ (∀ kk, (∀ k ∈ GoMap.keys sampleRegistry.extraData, kk ≠ .str k) →
              GoMap.get merged kk
                = GoMap.get [(.str "version", .string "0.0.0"), (.str "user", .string "admin")] kk) :=
  ⟨rfl, by decide,
    Render_executes_merged sampleQuote sampleRegistry [] "login.html" sampleTemplate
      [(.str "version", .string "0.0.0"), (.str "user", .string "admin")] rfl (by decide)⟩

/-- C8: whatever the name, the payload and the outcome, the registry after
`Render` is the registry before it: the same template map and the same ExtraData. -/
theorem Render_registry_unchanged (quote : String → String) (t : TemplateRegistry)
    (w : List UInt8) (name : String) (data : Value) :
    (t.Render quote w name data).t = t
      ∧ (t.Render quote w name data).t.templates = t.templates
      ∧ (t.Render quote w name data).t.extraData = t.extraData := by
  have h : (t.Render quote w name data).t = t := by
    unfold TemplateRegistry.Render
    split
    · rfl
    · split
      · rfl
      · dsimp only
        split <;> rfl
  exact ⟨h, by rw [h], by rw [h]⟩

/-- C9: for a name that is not a key of the template map and a payload of type
`map[string]interface{}`, `Render` returns its error and the caller's map is what
it was: no key added, no value overwritten. -/
theorem Render_not_found_keeps_payload (quote : String → String) (t : TemplateRegistry)
    (w : List UInt8) (name : String) (m : Option (List (Key × Value)))
    (h : name ∉ GoMap.keys t.templates) :
    (t.Render quote w name (mapStringInterface m)).data = mapStringInterface m
      ∧ (t.Render quote w name (mapStringInterface m)).outcome
          = .returned (some (.errorf ("Template not found: " ++ quote name))) := by
  have hget : GoMap.get t.templates name = none := (GoMap.get_eq_none_iff _ _).mpr h
  simp [TemplateRegistry.Render, hget]

/-- Witness of C9: the page "missing-page" and a payload with one entry. -/
theorem Render_not_found_keeps_payload_witness :
    "missing-page" ∉ GoMap.keys sampleRegistry.templates
      ∧ (sampleRegistry.Render sampleQuote [] "missing-page"
            (mapStringInterface (some [(.str "user", .string "admin")]))).data
          = mapStringInterface (some [(.str "user", .string "admin")])
      ∧ (sampleRegistry.Render sampleQuote [] "missing-page"
            (mapStringInterface (some [(.str "user", .string "admin")]))).outcome
          = .returned (some (.errorf ("Template not found: " ++ sampleQuote "missing-page"))) :=
  ⟨by decide,
    Render_not_found_keeps_payload sampleQuote sampleRegistry [] "missing-page"
      (some [(.str "user", .string "admin")]) (by decide)⟩

/-- C10: two orders of visiting the entries of one ExtraData map leave the same
payload.  On a non-nil map both loops end without a panic and the two maps have
the same entry under every key; on the nil map both loops end alike. -/
theorem inject_order_independent (order1 order2 : List (String × String))
    (hp : List.Perm order1 order2) (hwf : GoMap.WF order1) (d : List (Key × Value)) :
    (∃ m1 m2 : List (Key × Value),
        inject order1 (mapStringInterface (some d)) = (mapStringInterface (some m1), none)
          ∧ inject order2 (mapStringInterface (some d)) = (mapStringInterface (some m2), none)
          ∧ ∀ kk, GoMap.get m1 kk = GoMap.get m2 kk)
      ∧ inject order1 (mapStringInterface none) = inject order2 (mapStringInterface none) := by
  have hwf2 : GoMap.WF order2 := by
    unfold GoMap.WF GoMap.keys at *
    exact (List.Perm.nodup_iff (hp.map Prod.fst)).mp hwf
  constructor
  · refine ⟨assignAll order1 d, assignAll order2 d, inject_mapStringInterface _ _,
      inject_mapStringInterface _ _, ?_⟩
    intro kk
    by_cases hk : ∃ k, kk = .str k
    · obtain ⟨k, rfl⟩ := hk
      rw [get_assignAll_str order1 hwf d k, get_assignAll_str order2 hwf2 d k,
        GoMap.get_perm order1 order2 hp hwf k]
    · have h1 : ∀ k ∈ GoMap.keys order1, kk ≠ .str k := fun k _ heq => hk ⟨k, heq⟩
      have h2 : ∀ k ∈ GoMap.keys order2, kk ≠ .str k := fun k _ heq => hk ⟨k, heq⟩
      rw [get_assignAll_other order1 d kk h1, get_assignAll_other order2 d kk h2]
  · rw [inject_nil_map, inject_nil_map]
    have hnil : order1 = [] ↔ order2 = [] :=
      ⟨fun h => by subst h; exact hp.symm.eq_nil, fun h => by subst h; exact hp.eq_nil⟩
    by_cases h1 : order1 = []
    · simp [h1, hnil.mp h1]
    · have h2 : ¬ order2 = [] := fun h => h1 (hnil.mpr h)
      simp [h1, h2]

/-- Witness of C10: two entries, visited in the two possible orders. -/
theorem inject_order_independent_witness :
    List.Perm [("version", "1.2.3"), ("build", "42")] [("build", "42"), ("version", "1.2.3")]
      ∧ GoMap.WF [("version", "1.2.3"), ("build", "42")]
      ∧ ((∃ m1 m2 : List (Key × Value),
          inject [("version", "1.2.3"), ("build", "42")]
              (mapStringInterface (some [(.str "build", .string "0")]))
            = (mapStringInterface (some m1), none)
          ∧ inject [("build", "42"), ("version", "1.2.3")]
              (mapStringInterface (some [(.str "build", .string "0")]))
            = (mapStringInterface (some m2), none)
          ∧ ∀ kk, GoMap.get m1 kk = GoMap.get m2 kk)
        ∧ inject [("version", "1.2.3"), ("build", "42")] (mapStringInterface none)
            = inject [("build", "42"), ("version", "1.2.3")] (mapStringInterface none)) :=
  ⟨List.Perm.swap _ _ _, by decide,
    inject_order_independent [("version", "1.2.3"), ("build", "42")]
      [("build", "42"), ("version", "1.2.3")] (List.Perm.swap _ _ _) (by decide)
      [(.str "build", .string "0")]⟩

/-- For a name of the registry and a payload whose dynamic type is not of kind
map (a struct, a primitive), `Render` executes the template on the payload as it
is: no assignment is made and there is no panic. -/
theorem Render_passes_through (quote : String → String) (t : TemplateRegistry)
    (w : List UInt8) (name : String) (tmpl : Template) (data : Value) (ty : GoType)
    (hname : GoMap.get t.templates name = some tmpl)
    (hty : reflect.TypeOf data = some ty) (hkind : ty.Kind ≠ Kind.Map) :
    t.Render quote w name data
      = ⟨.returned ((tmpl.Execute data).err.map Error.execute),
          w ++ (tmpl.Execute data).written, data, t⟩ := by
  simp [TemplateRegistry.Render, hname, hty, hkind]

/-- For a name of the registry, `Render` on the nil interface panics on
`reflect.TypeOf(data).Kind()`; nothing is written. -/
theorem Render_nil_panics (quote : String → String) (t : TemplateRegistry)
    (w : List UInt8) (name : String) (tmpl : Template)
    (hname : GoMap.get t.templates name = some tmpl) :
    t.Render quote w name .nil = ⟨.panicked .nilPointerDereference, w, .nil, t⟩ := by
  simp [TemplateRegistry.Render, hname, reflect.TypeOf]

theorem assertMapStringInterface_fails (data : Value)
    (h : reflect.TypeOf data ≠ some (.map .string .emptyInterface)) :
    assertMapStringInterface data = .error (.interfaceConversion (reflect.TypeOf data)) := by
  unfold assertMapStringInterface
  split
  · exact absurd rfl h
  · rfl

/-- For a name of the registry, a non-empty ExtraData and a payload whose dynamic
type is of kind map but is not `map[string]interface{}` (another element type,
another key type, a defined type), `Render` panics on the type assertion of the
first pass of the loop; the payload is as it was and nothing is written. -/
theorem Render_other_map_panics (quote : String → String) (t : TemplateRegistry)
    (w : List UInt8) (name : String) (tmpl : Template) (data : Value) (ty : GoType)
    (hname : GoMap.get t.templates name = some tmpl)
    (hextra : t.extraData ≠ [])
    (hty : reflect.TypeOf data = some ty) (hkind : ty.Kind = Kind.Map)
    (hne : ty ≠ .map .string .emptyInterface) :
    t.Render quote w name data = ⟨.panicked (.interfaceConversion (some ty)), w, data, t⟩ := by
  have hassert : assertMapStringInterface data = .error (.interfaceConversion (some ty)) := by
    rw [assertMapStringInterface_fails data (by rw [hty]; simpa using hne), hty]
  cases hed : t.extraData with
  | nil => exact absurd hed hextra
  | cons e rest =>
    obtain ⟨k, v⟩ := e
    simp [TemplateRegistry.Render, hname, hty, hkind, hed, inject, assign, hassert]

/-- C3, where the code departs from it: with the template "login.html" in the
registry, `Render` on the nil interface panics with a nil dereference, and
`Render` on a `map[int]interface{}` panics on the type assertion; in both cases
the template is not executed (nothing is written). -/
theorem Render_nil_and_int_map_panic :
    (sampleRegistry.Render sampleQuote [] "login.html" .nil).outcome
        = .panicked .nilPointerDereference
      ∧ (sampleRegistry.Render sampleQuote [] "login.html" .nil).w = []
      ∧ (sampleRegistry.Render sampleQuote [] "login.html"
            (.map .int .emptyInterface none (some [(.int 1, .string "one")]))).outcome
          = .panicked (.interfaceConversion (some (.map .int .emptyInterface)))
      ∧ (sampleRegistry.Render sampleQuote [] "login.html"
            (.map .int .emptyInterface none (some [(.int 1, .string "one")]))).w = [] :=
  ⟨rfl, rfl, rfl, rfl⟩

/-- C4, where the code departs from it: with the template "login.html" in the
registry and ExtraData of one entry, `Render` on a `map[string]string` and on a
map of the defined type `echo.Map` panics on the type assertion; nothing is
merged and the template is not executed. -/
theorem Render_string_map_panics :
    (sampleRegistry.Render sampleQuote [] "login.html"
          (.map .string .string none (some [(.str "user", .string "admin")]))).outcome
        = .panicked (.interfaceConversion (some (.map .string .string)))
      ∧ (sampleRegistry.Render sampleQuote [] "login.html"
            (.map .string .string none (some [(.str "user", .string "admin")]))).w = []
      ∧ (sampleRegistry.Render sampleQuote [] "login.html"
            (.map .string .emptyInterface (some "echo.Map") (some []))).outcome
          = .panicked (.interfaceConversion
              (some (.defined "echo.Map" (.map .string .emptyInterface))))
      ∧ (sampleRegistry.Render sampleQuote [] "login.html"
            (.map .string .emptyInterface (some "echo.Map") (some []))).w = [] :=
  ⟨rfl, rfl, rfl, rfl⟩

/-! ## The loader -/

/-- C5: when every one of the five groups parses, `loadTemplates` returns a map
of five entries, one per group and no key twice, whose keys are the first files
of the groups, and the entry of a group is the unit that `ParseFS` made of all
the files of the group. -/
theorem loadTemplates_all_groups (ParseFS : ParseFunc)
    (h : ∀ g ∈ templateGroups, ∃ tmpl, ParseFS (primary g) g = .ok tmpl) :
    ∃ m, loadTemplates ParseFS = .ok m
      ∧ GoMap.keys m = templateGroups.map primary
      ∧ m.length = 5
      ∧ GoMap.WF m
      ∧ ∀ g ∈ templateGroups, ∃ tmpl,
          ParseFS (primary g) g = .ok tmpl ∧ GoMap.get m (primary g) = some tmpl := by
  obtain ⟨t1, h1⟩ := h ["login.html"] (by simp [templateGroups])
  obtain ⟨t2, h2⟩ := h ["clients.html", "base.html"] (by simp [templateGroups])
  obtain ⟨t3, h3⟩ := h ["server.html", "base.html"] (by simp [templateGroups])
  obtain ⟨t4, h4⟩ := h ["global_settings.html", "base.html"] (by simp [templateGroups])
  obtain ⟨t5, h5⟩ := h ["status.html", "base.html"] (by simp [templateGroups])
  refine ⟨_, loader_five ParseFS t1 t2 t3 t4 t5 h1 h2 h3 h4 h5, rfl, rfl,
    by simp [GoMap.WF, GoMap.keys], ?_⟩
  intro g hg
  simp only [templateGroups, List.mem_cons, List.mem_singleton, List.not_mem_nil, or_false] at hg
  rcases hg with rfl | rfl | rfl | rfl | rfl
  · exact ⟨t1, h1, by simp [GoMap.get, primary]⟩
  · exact ⟨t2, h2, by simp [GoMap.get, primary]⟩
  · exact ⟨t3, h3, by simp [GoMap.get, primary]⟩
  · exact ⟨t4, h4, by simp [GoMap.get, primary]⟩
  · exact ⟨t5, h5, by simp [GoMap.get, primary]⟩

/-- Witness of C5: the parser for which every group parses. -/
theorem loadTemplates_all_groups_witness :
    (∀ g ∈ templateGroups, ∃ tmpl, sampleParse (primary g) g = .ok tmpl)
      ∧ ∃ m, loadTemplates sampleParse = .ok m
        ∧ GoMap.keys m = templateGroups.map primary
        ∧ m.length = 5
        ∧ GoMap.WF m
        ∧ ∀ g ∈ templateGroups, ∃ tmpl,
            sampleParse (primary g) g = .ok tmpl ∧ GoMap.get m (primary g) = some tmpl :=
  ⟨fun _ _ => ⟨sampleTemplate, rfl⟩,
    loadTemplates_all_groups sampleParse (fun _ _ => ⟨sampleTemplate, rfl⟩)⟩

/-- C6, as the code has it: the keys of the map that `New` installs are the file
names "login.html", "clients.html", "server.html", "global_settings.html" and
"status.html"; `Render` with any of these five finds a template and does not
return the template-not-found error. -/
theorem New_template_keys (ParseFS : ParseFunc) (extraData : GoMap String String)
    (h : ∀ g ∈ templateGroups, ∃ tmpl, ParseFS (primary g) g = .ok tmpl) :
    ∃ t, New ParseFS extraData = .ok t
      ∧ t.extraData = extraData
      ∧ GoMap.keys t.templates
          = ["login.html", "clients.html", "server.html", "global_settings.html", "status.html"]
      ∧ ∀ name ∈ ["login.html", "clients.html", "server.html", "global_settings.html",
            "status.html"],
          (∃ tmpl, GoMap.get t.templates name = some tmpl)
            ∧ ∀ (quote : String → String) (w : List UInt8) (data : Value) (msg : String),
                (t.Render quote w name data).outcome ≠ .returned (some (.errorf msg)) := by
  obtain ⟨t1, h1⟩ := h ["login.html"] (by simp [templateGroups])
  obtain ⟨t2, h2⟩ := h ["clients.html", "base.html"] (by simp [templateGroups])
  obtain ⟨t3, h3⟩ := h ["server.html", "base.html"] (by simp [templateGroups])
  obtain ⟨t4, h4⟩ := h ["global_settings.html", "base.html"] (by simp [templateGroups])
  obtain ⟨t5, h5⟩ := h ["status.html", "base.html"] (by simp [templateGroups])
  have hload := loader_five ParseFS t1 t2 t3 t4 t5 h1 h2 h3 h4 h5
  refine ⟨⟨[("login.html", t1), ("clients.html", t2), ("server.html", t3),
    ("global_settings.html", t4), ("status.html", t5)], extraData⟩,
    by simp only [New, hload], rfl, rfl, ?_⟩
  intro name hname
  have hfound : ∃ tmpl, GoMap.get
      [("login.html", t1), ("clients.html", t2), ("server.html", t3),
        ("global_settings.html", t4), ("status.html", t5)] name = some tmpl := by
    simp only [List.mem_cons, List.mem_singleton, List.not_mem_nil, or_false] at hname
    rcases hname with rfl | rfl | rfl | rfl | rfl
    · exact ⟨t1, by simp [GoMap.get]⟩
    · exact ⟨t2, by simp [GoMap.get]⟩
    · exact ⟨t3, by simp [GoMap.get]⟩
    · exact ⟨t4, by simp [GoMap.get]⟩
    · exact ⟨t5, by simp [GoMap.get]⟩
  refine ⟨hfound, ?_⟩
  obtain ⟨tmpl, htmpl⟩ := hfound
  intro quote w data msg
  exact Render_found_not_errorf quote _ w name data tmpl htmpl msg

/-- Witness of the amended C6: the parser for which every group parses. -/
theorem New_template_keys_witness :
    (∀ g ∈ templateGroups, ∃ tmpl, sampleParse (primary g) g = .ok tmpl)
      ∧ ∃ t, New sampleParse [("version", "1.2.3")] = .ok t
        ∧ t.extraData = [("version", "1.2.3")]
        ∧ GoMap.keys t.templates
            = ["login.html", "clients.html", "server.html", "global_settings.html", "status.html"]
        ∧ ∀ name ∈ ["login.html", "clients.html", "server.html", "global_settings.html",
              "status.html"],
            (∃ tmpl, GoMap.get t.templates name = some tmpl)
              ∧ ∀ (quote : String → String) (w : List UInt8) (data : Value) (msg : String),
                  (t.Render quote w name data).outcome ≠ .returned (some (.errorf msg)) :=
  ⟨fun _ _ => ⟨sampleTemplate, rfl⟩,
    New_template_keys sampleParse [("version", "1.2.3")] (fun _ _ => ⟨sampleTemplate, rfl⟩)⟩

/-- C6 as stated fails: every group parses, the keys of the installed map are the
file names, and `Render` with the page name "login" and an empty
`map[string]interface{}` returns the template-not-found error. -/
theorem New_login_not_found :
    (New sampleParse [("version", "1.2.3")]).map (fun t => GoMap.keys t.templates)
        = .ok ["login.html", "clients.html", "server.html", "global_settings.html", "status.html"]
      ∧ (New sampleParse [("version", "1.2.3")]).map
          (fun t => (t.Render sampleQuote [] "login" (mapStringInterface (some []))).outcome)
        = .ok (.returned (some (.errorf ("Template not found: " ++ sampleQuote "login")))) :=
  ⟨rfl, rfl⟩

/-- C7: when some group does not parse, `loadTemplates` ends at the first such
group `g` with the fatal exit, so it returns no map and `New` no registry; the
calls of `ParseFS` are those of the groups before `g` and of `g`, and no group
from `g` on has an entry in the map at the exit. -/
theorem loadTemplates_fatal (ParseFS : ParseFunc) (extraData : GoMap String String)
    (h : ∃ g ∈ templateGroups, ∃ err, ParseFS (primary g) g = .error err) :
    ∃ pre g post err s, templateGroups = pre ++ g :: post
      ∧ (∀ x ∈ pre, ∃ tmpl, ParseFS (primary x) x = .ok tmpl)
      ∧ ParseFS (primary g) g = .error err
      ∧ loadTemplatesTrace ParseFS = .error (.fatal (primary g) err, s)
      ∧ loadTemplates ParseFS = .error (.fatal (primary g) err)
      ∧ New ParseFS extraData = .error (.fatal (primary g) err)
      ∧ s.parsed = (pre ++ [g]).map (fun x => (primary x, x))
      ∧ ∀ x ∈ g :: post, primary x ∉ GoMap.keys s.templates := by
  have hex : ∃ x ∈ templateGroups, ¬ ∃ tmpl, ParseFS (primary x) x = .ok tmpl := by
    obtain ⟨g, hg, err, herr⟩ := h
    refine ⟨g, hg, ?_⟩
    rintro ⟨tmpl, htmpl⟩
    rw [herr] at htmpl
    cases htmpl
  obtain ⟨pre, g, post, hsplit, hpre, hg⟩ :=
    exists_first_failure (fun x => ∃ tmpl, ParseFS (primary x) x = .ok tmpl) templateGroups hex
  have hfail : ∃ err, ParseFS (primary g) g = .error err := by
    cases hres : ParseFS (primary g) g with
    | error err => exact ⟨err, rfl⟩
    | ok tmpl => exact absurd ⟨tmpl, hres⟩ hg
  obtain ⟨err, herr⟩ := hfail
  have hall : ∀ x ∈ templateGroups, x ≠ [] := by decide
  have hpne : ∀ x ∈ pre, x ≠ [] := fun x hx => hall x (by rw [hsplit]; simp [hx])
  have hgne : g ≠ [] := hall g (by rw [hsplit]; simp)
  obtain ⟨s, hs, hparsed, hkeys⟩ :=
    loader_fatal ParseFS pre g post err ⟨[], []⟩ hpre hpne hgne herr
  have htrace : loadTemplatesTrace ParseFS = .error (.fatal (primary g) err, s) := by
    unfold loadTemplatesTrace
    rw [hsplit]
    exact hs
  have hload : loadTemplates ParseFS = .error (.fatal (primary g) err) := by
    simp only [loadTemplates, htrace]
  have hnodup : (templateGroups.map primary).Nodup := by decide
  rw [hsplit, List.map_append, List.nodup_append] at hnodup
  refine ⟨pre, g, post, err, s, hsplit, hpre, herr, htrace, hload, ?_, ?_, ?_⟩
  · simp only [New, hload]
  · simpa using hparsed
  · intro x hx hmem
    rcases hkeys (primary x) hmem with h0 | h0
    · simp [GoMap.keys] at h0
    · exact hnodup.2.2 h0 (List.mem_map.mpr ⟨x, hx, rfl⟩)

/-- Witness of C7: the parser for which the group of "server.html" does not parse. -/
theorem loadTemplates_fatal_witness :
    (∃ g ∈ templateGroups, ∃ err, failingParse (primary g) g = .error err)
      ∧ ∃ pre g post err s, templateGroups = pre ++ g :: post
        ∧ (∀ x ∈ pre, ∃ tmpl, failingParse (primary x) x = .ok tmpl)
        ∧ failingParse (primary g) g = .error err
        ∧ loadTemplatesTrace failingParse = .error (.fatal (primary g) err, s)
        ∧ loadTemplates failingParse = .error (.fatal (primary g) err)
        ∧ New failingParse [("version", "1.2.3")] = .error (.fatal (primary g) err)
        ∧ s.parsed = (pre ++ [g]).map (fun x => (primary x, x))
        ∧ ∀ x ∈ g :: post, primary x ∉ GoMap.keys s.templates :=
  ⟨⟨["server.html", "base.html"], by decide, "unexpected EOF", rfl⟩,
    loadTemplates_fatal failingParse [("version", "1.2.3")]
      ⟨["server.html", "base.html"], by decide, "unexpected EOF", rfl⟩⟩

end router
